import Mathlib

/-!
Shallow embedding of the pypomes_http repository
(src/pypomes_http/http_pomes.py and src/pypomes_http/http_async.py),
for checking the natural-language specification against the code.

Python dicts are modelled as ordered entry lists; dict objects whose identity
matters (headers and files mappings, which the dispatcher clones) live in an
explicit heap so that cloning versus in-place mutation is observable.
External collaborators (the requests transport, the pypomes_jwt token services,
the wall clock) are supplied as environment values.
-/

namespace PypomesHttp

/-- Python exceptions that the embedded code can raise. -/
inductive PyExc
  | keyError (key : String)
  | attributeError (msg : String)
  | typeError (msg : String)
  | indexError
  deriving DecidableEq

/-- A Python string-to-string dict, as its ordered entry list. -/
abbrev SDict := List (String × String)

/-- dict.get(k): the value of the entry with key k, when present. -/
def dictGet (d : SDict) (k : String) : Option String :=
  (d.find? (fun p => p.1 == k)).map (fun p => p.2)

/-- dict.pop(k, default) and dict.pop(k): the looked-up value together with the
dict with that key removed. -/
def dictPop (d : SDict) (k : String) : Option String × SDict :=
  (dictGet d k, d.filter (fun p => p.1 != k))

/-- d[k] = v on a dict: replace the existing entry in place, or append a new one. -/
def dictSet (d : SDict) (k v : String) : SDict :=
  if (dictGet d k).isSome then d.map (fun p => if p.1 == k then (k, v) else p)
  else d ++ [(k, v)]

/-- An in-memory byte stream, modelling io.BytesIO: buffer plus current position. -/
structure ByteStream where
  buf : List Nat
  pos : Nat
  deriving DecidableEq

/-- BytesIO(b): a fresh stream over buffer b, position 0. -/
def mkStream (b : List Nat) : ByteStream := ⟨b, 0⟩

/-- stream.seek(0). -/
def streamSeek0 (s : ByteStream) : ByteStream := ⟨s.buf, 0⟩

/-- stream.read(): the bytes from the current position onward. -/
def streamRead (s : ByteStream) : List Nat := s.buf.drop s.pos

/-- One element of a files tuple (file-name, file-content, content-type, custom-headers). -/
inductive FileElem
  | str (s : String)
  | bytes (b : List Nat)
  | stream (s : ByteStream)
  | dict (d : SDict)
  deriving DecidableEq

/-- A value of the files mapping: raw bytes, a stream, or a tuple of elements. -/
inductive FileVal
  | bytes (b : List Nat)
  | stream (s : ByteStream)
  | tup (es : List FileElem)
  deriving DecidableEq

/-- A files dict, as its ordered entry list. -/
abbrev FDict := List (String × FileVal)

/-- A heap object: a headers dict or a files dict. -/
inductive Obj
  | strdict (d : SDict)
  | filedict (d : FDict)
  deriving DecidableEq

/-- Object heap: refs are list indices. Python dict objects passed into the
dispatcher live here, so that cloning versus mutation of the caller objects is
observable. -/
abbrev Heap := List Obj

/-- Read a headers dict object. -/
def heapGetS (h : Heap) (r : Nat) : SDict :=
  match h.getD r (Obj.strdict []) with
  | Obj.strdict d => d
  | _ => []

/-- Read a files dict object. -/
def heapGetF (h : Heap) (r : Nat) : FDict :=
  match h.getD r (Obj.filedict []) with
  | Obj.filedict d => d
  | _ => []

/-- class HttpMethod(StrEnum) of http_pomes.py. Note that the source line
PATCH = "PATH" gives the PATCH member the string value "PATH". -/
inductive HttpMethod
  | DELETE | GET | HEAD | PATCH | POST | PUT
  deriving DecidableEq

/-- member.name of the StrEnum member: the member identifier itself. -/
def HttpMethod.name : HttpMethod → String
  | .DELETE => "DELETE"
  | .GET => "GET"
  | .HEAD => "HEAD"
  | .PATCH => "PATCH"
  | .POST => "POST"
  | .PUT => "PUT"

/-- member.value of the StrEnum member: the string it formats as in f-strings
and str(). The source assigns PATCH the value "PATH". -/
def HttpMethod.value : HttpMethod → String
  | .DELETE => "DELETE"
  | .GET => "GET"
  | .HEAD => "HEAD"
  | .PATCH => "PATH"
  | .POST => "POST"
  | .PUT => "PUT"

/-- The transport response, modelling requests.Response: status code, reason
phrase and raw byte content (none when the content attribute is not bytes). -/
structure Response where
  status_code : Nat
  reason : String
  content : Option (List Nat)
  deriving DecidableEq

/-- Python truthiness of a requests.Response: bool(r) is r.ok, which is false
exactly when raise_for_status would raise, that is for status 400..599. -/
def Response.truthy (r : Response) : Bool :=
  if 400 ≤ r.status_code ∧ r.status_code < 600 then false else true

/-- Outcomes of the external collaborators for one dispatch. The token services
come from pypomes_jwt: each returns the error strings it appends to the local
list together with the access-token value (a missing token renders as None).
The transport is requests.request: a response, or a raised exception whose
exc_format rendering is the given string. -/
structure Env where
  requestToken : List String × Option String
  getToken : List String × Option String
  transport : Except String Response

/-- One recorded invocation of requests.request. -/
structure TransportCall where
  verb : String
  url : String
  headers : Option SDict
  params : Option String
  data : Option String
  jsonBody : Option String
  files : Option FDict
  timeout : Option Nat
  deriving DecidableEq

/-- Result of http_rest: the returned value or the uncaught exception, the final
state of the caller error sink, the transport invocations made, the final heap,
and the ref of the headers object that would be handed to the transport. -/
structure RestOut where
  ret : Except PyExc (Option Response)
  errs : Option (List String)
  calls : List TransportCall
  heap : Heap
  opRef : Option Nat

/-- The arguments of one http_rest call. The headers and files dicts are passed
by reference into the heap; a ref of none models passing None. -/
structure RestArgs where
  method : HttpMethod
  url : String
  headersRef : Option Nat
  params : Option String
  data : Option String
  jsonBody : Option String
  filesRef : Option Nat
  auth : Option SDict
  timeout : Option Nat

/-- Appending messages to the caller error sink: the source guards every append
with isinstance(errors, list), so a None sink drops the messages. -/
def extendErrs : Option (List String) → List String → Option (List String)
  | some l, ms => some (l ++ ms)
  | none, _ => none

/-- Python str() of an optional string: None renders as "None". -/
def pyStrOpt : Option String → String
  | none => "None"
  | some s => s

/-- The unsupported-scheme message built by http_rest from auth.get("scheme"). -/
def authSchemeMsg (scheme : Option String) : String :=
  "Authentication scheme " ++ pyStrOpt scheme ++ " not implemented"

/-- The failed-status message built by http_rest from the method value, the url,
the status code and the reason phrase. -/
def failMsg (methodValue url : String) (code : Nat) (reason : String) : String :=
  methodValue ++ " '" ++ url ++ "': failed, status " ++ toString code ++
    ", reason '" ++ reason ++ "'"

/-- Step 1 of http_rest: op_headers is headers.copy() if headers else None.
A falsy headers argument (no ref, or a ref to an empty dict) yields no headers
object; otherwise a fresh copy is allocated on the heap. -/
def cloneHeaders : Heap → Option Nat → Heap × Option Nat
  | heap, none => (heap, none)
  | heap, some r =>
    if (heapGetS heap r).isEmpty then (heap, none)
    else (heap ++ [Obj.strdict (heapGetS heap r)], some heap.length)

/-- Outcome of the authorization stage of http_rest. -/
inductive AuthStage
  | raise (e : PyExc)
  | failTok (tokErrs : List String)
  | failScheme (msg : String)
  | proceed (heap : Heap) (opHeaders : Option Nat)

/-- The headers object targeted by the Authorization injection: the cloned
headers when they are truthy, a freshly allocated empty dict otherwise. -/
def authTarget : Heap → Option Nat → Heap × Nat
  | heap, some r =>
    if (heapGetS heap r).isEmpty then (heap ++ [Obj.strdict []], heap.length)
    else (heap, r)
  | heap, none => (heap ++ [Obj.strdict []], heap.length)

/-- The error strings produced by the token fetch for a bearer auth dict: after
scheme and provider are popped, remaining claims select the claims-aware
service, otherwise the plain fetch. -/
def bearerTokErrs (env : Env) (ad : SDict) : List String :=
  (if ((dictPop (dictPop ad "scheme").2 "provider").2).isEmpty then env.getToken
   else env.requestToken).1

/-- The authorization stage of http_rest. jwt_data is dict(auth or empty); when
it is non-empty, the scheme is popped: the bearer path pops the provider
(raising KeyError when the key is absent), fetches a token (the claims-aware
service when extra claims remain, the plain fetch otherwise) and, when that
produced no errors, sets the Authorization header on the cloned headers,
allocating a fresh empty dict when the clone is falsy; token errors are
reported back instead, and any other scheme is the not-implemented error. -/
def authStep (env : Env) (auth : Option SDict) (heap : Heap) (opHeaders : Option Nat) :
    AuthStage :=
  let jwt0 := auth.getD []
  if jwt0.isEmpty then .proceed heap opHeaders
  else
    let popScheme := dictPop jwt0 "scheme"
    if popScheme.1 == some "bearer" then
      let popProv := dictPop popScheme.2 "provider"
      match popProv.1 with
      | none => .raise (.keyError "provider")
      | some _ =>
        let fetched := if popProv.2.isEmpty then env.getToken else env.requestToken
        if fetched.1.isEmpty then
          let t := authTarget heap opHeaders
          let d2 := dictSet (heapGetS t.1 t.2) "Authorization"
            ("Bearer " ++ pyStrOpt fetched.2)
          .proceed (t.1.set t.2 (Obj.strdict d2)) (some t.2)
        else .failTok fetched.1
    else .failScheme (authSchemeMsg (dictGet jwt0 "scheme"))

/-- Convert one value of the copied files mapping: raw bytes become a fresh
BytesIO stream seeked to 0; a tuple with bytes in position 1 has that position
converted the same way, with the tuple rebuilt around it; anything else is kept
as is. Indexing position 1 of a tuple shorter than 2 raises IndexError. -/
def convFile : FileVal → Except PyExc FileVal
  | .bytes b => .ok (.stream (streamSeek0 (mkStream b)))
  | .tup es =>
    match es[1]? with
    | none => .error .indexError
    | some (FileElem.bytes b) => .ok (.tup (es.set 1 (.stream (streamSeek0 (mkStream b)))))
    | some _ => .ok (.tup es)
  | v => .ok v

/-- The conversion loop of http_rest over the entries of the copied files dict. -/
def adjustEntries : FDict → Except PyExc FDict
  | [] => .ok []
  | (k, v) :: rest => do
    let v2 ← convFile v
    let rest2 ← adjustEntries rest
    .ok ((k, v2) :: rest2)

/-- Step 3 of http_rest: for POST with a files dict, work on a copy of the
mapping (a fresh heap object) and convert byte payloads to streams; for every
other method the files argument is disregarded. Returns the files value handed
to the transport together with the heap. -/
def filesStep : HttpMethod → Option Nat → Heap → Except PyExc (Option FDict × Heap)
  | method, some r, heap =>
    if method == HttpMethod.POST then
      match adjustEntries (heapGetF heap r) with
      | .ok fv2 =>
        .ok (some fv2, (heap ++ [Obj.filedict (heapGetF heap r)]).set heap.length
          (Obj.filedict fv2))
      | .error e => .error e
    else .ok (none, heap)
  | _, none, heap => .ok (none, heap)

/-- The embedded http_rest of src/pypomes_http/http_pomes.py. Note, on the
transport branch: when requests.request raises, the except block formats an
error message, but the status check that follows evaluates its f-string with
result still None, so result.status_code raises an AttributeError that escapes
the function before anything is appended to the caller sink. -/
def http_rest (env : Env) (errors : Option (List String)) (a : RestArgs) (heap : Heap) :
    RestOut :=
  let p := cloneHeaders heap a.headersRef
  match authStep env a.auth p.1 p.2 with
  | .raise e => ⟨.error e, errors, [], p.1, p.2⟩
  | .failTok te => ⟨.ok none, extendErrs errors te, [], p.1, p.2⟩
  | .failScheme m => ⟨.ok none, extendErrs errors [m], [], p.1, p.2⟩
  | .proceed heap2 opH2 =>
    match filesStep a.method a.filesRef heap2 with
    | .error e => ⟨.error e, errors, [], heap2, opH2⟩
    | .ok pr =>
      let call : TransportCall :=
        ⟨a.method.name, a.url, opH2.map (heapGetS pr.2), a.params, a.data, a.jsonBody,
          pr.1, a.timeout⟩
      match env.transport with
      | .ok r =>
        if r.truthy = false ∨ r.status_code < 200 ∨ 300 ≤ r.status_code then
          ⟨.ok (some r),
            extendErrs errors [failMsg a.method.value a.url r.status_code r.reason],
            [call], pr.2, opH2⟩
        else ⟨.ok (some r), errors, [call], pr.2, opH2⟩
      | .error _ =>
        ⟨.error (.attributeError "NoneType object has no attribute status_code"),
          errors, [call], pr.2, opH2⟩

/-- The base64 alphabet, as used by base64.b64encode. -/
def b64Alphabet : List Char :=
  "ABCDEFGHIJKLMNOPQRSTUVWXYZabcdefghijklmnopqrstuvwxyz0123456789+/".toList

/-- The alphabet character of a sextet. -/
def sextetChar (s : Nat) : Char := b64Alphabet.getD s 'A'

/-- The sextet of an alphabet character. -/
def sextetIdx (c : Char) : Option Nat := b64Alphabet.findIdx? (fun x => x == c)

/-- Base64 encoding: groups of three bytes to four characters, with padding. -/
def b64chunks : List Nat → List Char
  | b0 :: b1 :: b2 :: rest =>
    sextetChar (b0 / 4) :: sextetChar (b0 % 4 * 16 + b1 / 16) ::
      sextetChar (b1 % 16 * 4 + b2 / 64) :: sextetChar (b2 % 64) :: b64chunks rest
  | [b0, b1] =>
    [sextetChar (b0 / 4), sextetChar (b0 % 4 * 16 + b1 / 16), sextetChar (b1 % 16 * 4), '=']
  | [b0] => [sextetChar (b0 / 4), sextetChar (b0 % 4 * 16), '=', '=']
  | [] => []

/-- Base64 decoding, the inverse of b64chunks. -/
def b64dchunks : List Char → Option (List Nat)
  | x0 :: x1 :: x2 :: x3 :: rest =>
    match sextetIdx x0, sextetIdx x1 with
    | some s0, some s1 =>
      if x2 = '=' then
        if x3 = '=' ∧ rest = [] then some [s0 * 4 + s1 / 16] else none
      else
        match sextetIdx x2 with
        | some s2 =>
          if x3 = '=' then
            if rest = [] then some [s0 * 4 + s1 / 16, s1 % 16 * 16 + s2 / 4] else none
          else
            match sextetIdx x3 with
            | some s3 =>
              match b64dchunks rest with
              | some bs => some ((s0 * 4 + s1 / 16) :: (s1 % 16 * 16 + s2 / 4) ::
                  (s2 % 4 * 64 + s3) :: bs)
              | none => none
            | none => none
        | none => none
    | _, _ => none
  | [] => some []
  | _ => none

/-- base64.b64encode(bs).decode(): the encoded string. -/
def b64encode (bs : List Nat) : String := String.mk (b64chunks bs)

/-- base64.b64decode: the decoded bytes. -/
def b64decode (s : String) : Option (List Nat) := b64dchunks s.data

/-- Escaping of one character under json.dumps with ensure_ascii False. -/
def jsonEscapeChar (c : Char) : String :=
  if c = '\\' then "\\\\" else if c = '"' then "\\\"" else String.mk [c]

/-- Escaping of a string under json.dumps. -/
def jsonEscape (s : String) : String := String.join (s.data.map jsonEscapeChar)

/-- json.dumps of a list of strings, ensure_ascii False. -/
def jsonDumps (l : List String) : String :=
  "[" ++ String.intercalate ", " (l.map (fun s => "\"" ++ jsonEscape s ++ "\"")) ++ "]"

/-- A value of the callback reply dict: a string, or a recorded timestamp (the
instant of the datetime.now call whose isoformat rendering is stored). -/
inductive RVal
  | str (s : String)
  | time (t : Nat)
  deriving DecidableEq

/-- The reply dict handed to the callback, as its ordered entry list. -/
abbrev Reply := List (String × RVal)

/-- reply.get(k). -/
def replyGet : Reply → String → Option RVal
  | [], _ => none
  | (k, v) :: rest, q => if k = q then some v else replyGet rest q

/-- Whether the reply dict has the key. -/
def replyHasKey (r : Reply) (k : String) : Bool := (replyGet r k).isSome

/-- The stored attributes of an HttpAsync job, as set by the constructor. The
job_method is a plain string literal, as in the source. -/
structure JobSpec where
  job_name : String
  job_url : String
  job_method : String
  callback : Bool
  report_content : Bool
  headers : Option SDict
  params : Option String
  data : Option String
  jsonBody : Option String
  auth : Option String
  timeout : Option Nat

/-- Environment of one HttpAsync.run: the wall clock (the instant of the i-th
datetime.now call, already parsed back from its ISO-8601 rendering) and the
outcome of the dispatcher call: the error strings it appends to the private
list and the optional response it returns. -/
structure AsyncEnv where
  clock : Nat → Nat
  dispErrs : List String
  dispResp : Option Response

/-- One recorded invocation of the synchronous dispatch primitive. -/
structure DispatchRec where
  errorsIn : List String
  method : String
  url : String
  headers : Option SDict
  params : Option String
  data : Option String
  jsonBody : Option String
  auth : Option String
  timeout : Option Nat
  deriving DecidableEq

/-- Modelled from the spec: the synchronous dispatch primitive that
http_async.py imports from http_pomes.py is not under src/ (the spec notes two
preserved dispatcher variants; only the public http_rest is in src/). Per the
spec, the dispatcher appends its error strings to the caller-supplied list and
returns the response, or None on a failed dispatch; both outcomes are supplied
by the environment, and the invocation with all its arguments is recorded. -/
def dispatchPrim (env : AsyncEnv) (errors : List String) (job : JobSpec) :
    List String × Option Response × DispatchRec :=
  (errors ++ env.dispErrs, env.dispResp,
    ⟨errors, job.job_method, job.job_url, job.headers, job.params, job.data,
      job.jsonBody, job.auth, job.timeout⟩)

/-- The observable events of one HttpAsync.run, in order. -/
inductive REvent
  | recStart | dispatch | recFinish | callbackCall
  deriving DecidableEq

/-- The outcome of one HttpAsync.run: the recorded timestamps, the dispatcher
invocations, the callback invocations, and the ordered event trace. -/
structure RunOut where
  start : Nat
  finish : Nat
  dispCalls : List DispatchRec
  cbCalls : List Reply
  events : List REvent
  deriving DecidableEq

/-- The embedded HttpAsync.run of src/pypomes_http/http_async.py: initialize the
private errors list, record the start timestamp, invoke the dispatch primitive,
record the finish timestamp and, when a callback was supplied, build the reply
dict (job-name, start and finish always; errors only when the private list is
non-empty; content only when report_content holds, the response is truthy and
its content attribute is bytes, base64-encoded) and invoke the callback. -/
def HttpAsync_run (job : JobSpec) (env : AsyncEnv) : RunOut :=
  let errors0 : List String := []
  let start := env.clock 0
  let stepped := dispatchPrim env errors0 job
  let errors1 := stepped.1
  let resp := stepped.2.1
  let dcall := stepped.2.2
  let finish := env.clock 1
  if job.callback then
    let reply0 : Reply :=
      [("job-name", RVal.str job.job_name), ("start", RVal.time start),
        ("finish", RVal.time finish)]
    let reply1 :=
      if errors1.isEmpty then reply0
      else reply0 ++ [("errors", RVal.str (jsonDumps errors1))]
    let reply2 :=
      match resp with
      | some r =>
        match r.content with
        | some bs =>
          if job.report_content && r.truthy then
            reply1 ++ [("content", RVal.str (b64encode bs))]
          else reply1
        | none => reply1
      | none => reply1
    ⟨start, finish, [dcall], [reply2], [.recStart, .dispatch, .recFinish, .callbackCall]⟩
  else ⟨start, finish, [dcall], [], [.recStart, .dispatch, .recFinish]⟩

/-- The reply dict that HttpAsync_run hands to the callback, as a function of
the job and the environment. -/
def replyOf (job : JobSpec) (env : AsyncEnv) : Reply :=
  let errors1 := env.dispErrs
  let reply0 : Reply :=
    [("job-name", RVal.str job.job_name), ("start", RVal.time (env.clock 0)),
      ("finish", RVal.time (env.clock 1))]
  let reply1 :=
    if errors1.isEmpty then reply0
    else reply0 ++ [("errors", RVal.str (jsonDumps errors1))]
  match env.dispResp with
  | some r =>
    match r.content with
    | some bs =>
      if job.report_content && r.truthy then
        reply1 ++ [("content", RVal.str (b64encode bs))]
      else reply1
    | none => reply1
  | none => reply1

/-- One entry of the status table: canonical name plus localized descriptions. -/
structure StatusEntry where
  name : String
  en : String
  pt : String
  deriving DecidableEq

/-- Modelled from the spec: the table of http_statuses.py, which is not under
src/. Per the spec it is a static lookup mapping from numeric status code to
canonical name and localized descriptions; http_status_name in src/ reads it
with dict.get on the numeric code, so it is a Python dict keyed by the code.
It is modelled as the ordered list of its entries. -/
abbrev StatusTable := List (Nat × StatusEntry)

/-- Iterating the table dict itself yields only its keys. -/
def statusTableKeys (t : StatusTable) : List Nat := t.map (fun p => p.1)

/-- The embedded http_status_code of src/pypomes_http/http_pomes.py. The source
loop iterates the dict directly, not its items: each iteration yields an int
key, and unpacking that int into the pair of loop variables raises TypeError on
the first iteration; with an empty table the loop body never runs and the
initial None is returned. -/
def http_status_code (table : StatusTable) (_status_name : String) :
    Except PyExc (Option Nat) :=
  match statusTableKeys table with
  | [] => .ok none
  | _ :: _ => .error (.typeError "cannot unpack non-iterable int object")

/-! Helper lemmas. -/

lemma dictGet_nil (k : String) : dictGet [] k = none := rfl

lemma dictPop_fst (d : SDict) (k : String) : (dictPop d k).1 = dictGet d k := rfl

lemma dictGet_ne_nil {d : SDict} {k : String} {v : String} (h : dictGet d k = some v) :
    d ≠ [] := by
  intro hnil
  rw [hnil] at h
  exact Option.noConfusion h

lemma dictGet_filter_ne (d : SDict) (k q : String) (hne : q ≠ k) :
    dictGet (d.filter (fun p => p.1 != k)) q = dictGet d q := by
  induction d with
  | nil => rfl
  | cons p rest ih =>
    by_cases hp : p.1 = k
    · have h1 : (fun p : String × String => p.1 != k) p = false := by
        simp [hp]
      have h2 : (p.1 == q) = false := by
        simp [hp]
        exact fun hq => hne hq.symm
      simp only [List.filter_cons, h1, Bool.false_eq_true, if_false, ih]
      simp only [dictGet, List.find?_cons, h2]
    · have h1 : (fun p : String × String => p.1 != k) p = true := by
        simp [hp]
      simp only [List.filter_cons, h1, if_true]
      by_cases hq : p.1 = q
      · simp only [dictGet, List.find?_cons, hq, beq_self_eq_true]
      · have h2 : (p.1 == q) = false := by simp [hq]
        simp only [dictGet, List.find?_cons, h2]
        exact ih

lemma heap_getD_set_ne (h : Heap) (j i : Nat) (x d : Obj) (hne : j ≠ i) :
    (h.set j x).getD i d = h.getD i d := by
  simp [List.getD_eq_getElem?_getD, List.getElem?_set_ne hne]

lemma heap_getD_append (h : Heap) (l : List Obj) (i : Nat) (d : Obj) (hi : i < h.length) :
    (h ++ l).getD i d = h.getD i d := List.getD_append h l d i hi

lemma cloneHeaders_extends (heap : Heap) (hr : Option Nat) :
    heap.length ≤ (cloneHeaders heap hr).1.length ∧
      (∀ i d, i < heap.length → ((cloneHeaders heap hr).1).getD i d = heap.getD i d) ∧
      (∀ n, (cloneHeaders heap hr).2 = some n → heap.length ≤ n) := by
  match hr with
  | none => exact ⟨le_refl _, fun i d _ => rfl, fun n hn => Option.noConfusion hn⟩
  | some r =>
    by_cases he : (heapGetS heap r).isEmpty
    · have hcl : cloneHeaders heap (some r) = (heap, none) := by
        simp only [cloneHeaders]
        rw [if_pos he]
      rw [hcl]
      exact ⟨le_refl _, fun i d _ => rfl, fun n hn => Option.noConfusion hn⟩
    · have hcl : cloneHeaders heap (some r) =
          (heap ++ [Obj.strdict (heapGetS heap r)], some heap.length) := by
        simp only [cloneHeaders]
        rw [if_neg he]
      rw [hcl]
      refine ⟨by simp, fun i d hi => heap_getD_append _ _ _ _ hi, ?_⟩
      intro n hn
      cases hn
      exact le_refl _

lemma authTarget_extends (orig : Nat) (heap : Heap) (o : Option Nat)
    (hlen : orig ≤ heap.length) (ho : ∀ n, o = some n → orig ≤ n) :
    orig ≤ (authTarget heap o).1.length ∧
      (∀ i d, i < orig → ((authTarget heap o).1).getD i d = heap.getD i d) ∧
      orig ≤ (authTarget heap o).2 := by
  match o with
  | none =>
    have ht : authTarget heap none = (heap ++ [Obj.strdict []], heap.length) := rfl
    rw [ht]
    exact ⟨by simp; omega, fun i d hi => heap_getD_append _ _ _ _ (by omega), hlen⟩
  | some r =>
    by_cases he : (heapGetS heap r).isEmpty
    · have ht : authTarget heap (some r) = (heap ++ [Obj.strdict []], heap.length) := by
        simp only [authTarget]
        rw [if_pos he]
      rw [ht]
      exact ⟨by simp; omega, fun i d hi => heap_getD_append _ _ _ _ (by omega), hlen⟩
    · have ht : authTarget heap (some r) = (heap, r) := by
        simp only [authTarget]
        rw [if_neg he]
      rw [ht]
      exact ⟨hlen, fun i d _ => rfl, ho r rfl⟩

lemma authStep_extends (env : Env) (auth : Option SDict) (h : Heap) (o : Option Nat)
    (orig : Nat) (hlen : orig ≤ h.length) (ho : ∀ n, o = some n → orig ≤ n) :
    ∀ h2 o2, authStep env auth h o = .proceed h2 o2 →
      orig ≤ h2.length ∧ (∀ i d, i < orig → h2.getD i d = h.getD i d) ∧
        (∀ n, o2 = some n → orig ≤ n) := by
  intro h2 o2 hstep
  unfold authStep at hstep
  by_cases hj : (auth.getD []).isEmpty
  · simp only [hj, if_true, AuthStage.proceed.injEq] at hstep
    obtain ⟨rfl, rfl⟩ := hstep
    exact ⟨hlen, fun i d _ => rfl, ho⟩
  · simp only [hj, Bool.false_eq_true, if_false] at hstep
    by_cases hb : ((dictPop (auth.getD []) "scheme").1 == some "bearer") = true
    · simp only [hb, if_true] at hstep
      match hprov : (dictPop (dictPop (auth.getD []) "scheme").2 "provider").1 with
      | none => rw [hprov] at hstep; exact absurd hstep (by simp)
      | some pv =>
        rw [hprov] at hstep
        by_cases hf :
            ((if (dictPop (dictPop (auth.getD []) "scheme").2 "provider").2.isEmpty then
              env.getToken else env.requestToken).1).isEmpty
        · simp only [hf, if_true, AuthStage.proceed.injEq] at hstep
          obtain ⟨hh2, ho2⟩ := hstep
          obtain ⟨t1, t2, t3⟩ := authTarget_extends orig h o hlen ho
          subst hh2
          refine ⟨by simp; omega, ?_, ?_⟩
          · intro i d hi
            rw [heap_getD_set_ne _ _ _ _ _ (by omega)]
            exact t2 i d hi
          · intro n hn
            rw [← ho2] at hn
            cases hn
            exact t3
        · simp only [hf, Bool.false_eq_true, if_false] at hstep
          exact absurd hstep (by simp)
    · simp only [hb, Bool.false_eq_true, if_false] at hstep
      exact absurd hstep (by simp)

lemma filesStep_extends (m : HttpMethod) (fr : Option Nat) (h : Heap) (orig : Nat)
    (hlen : orig ≤ h.length) :
    ∀ xf h3, filesStep m fr h = .ok (xf, h3) →
      orig ≤ h3.length ∧ (∀ i d, i < orig → h3.getD i d = h.getD i d) := by
  intro xf h3 hstep
  match fr with
  | none =>
    simp only [filesStep, Except.ok.injEq, Prod.mk.injEq] at hstep
    obtain ⟨-, rfl⟩ := hstep
    exact ⟨hlen, fun i d _ => rfl⟩
  | some r =>
    simp only [filesStep] at hstep
    by_cases hm : (m == HttpMethod.POST) = true
    · rw [if_pos hm] at hstep
      match hadj : adjustEntries (heapGetF h r) with
      | .ok fv2 =>
        rw [hadj] at hstep
        have hstep2 : (Except.ok (some fv2,
            (h ++ [Obj.filedict (heapGetF h r)]).set h.length (Obj.filedict fv2)) :
            Except PyExc (Option FDict × Heap)) = .ok (xf, h3) := hstep
        simp only [Except.ok.injEq, Prod.mk.injEq] at hstep2
        obtain ⟨-, rfl⟩ := hstep2
        constructor
        · simp
          omega
        · intro i d hi
          rw [heap_getD_set_ne _ _ _ _ _ (by omega)]
          exact heap_getD_append _ _ _ _ (by omega)
      | .error e =>
        rw [hadj] at hstep
        have hstep2 : (Except.error e : Except PyExc (Option FDict × Heap)) =
            .ok (xf, h3) := hstep
        exact absurd hstep2 (by simp)
    · rw [if_neg hm] at hstep
      have hstep2 : (Except.ok (none, h) : Except PyExc (Option FDict × Heap)) =
          .ok (xf, h3) := hstep
      simp only [Except.ok.injEq, Prod.mk.injEq] at hstep2
      obtain ⟨-, rfl⟩ := hstep2
      exact ⟨hlen, fun i d _ => rfl⟩

lemma isEmpty_false_of_ne_nil {α} {l : List α} (h : l ≠ []) : l.isEmpty = false := by
  cases l with
  | nil => exact absurd rfl h
  | cons x xs => rfl

lemma authStep_none (env : Env) (h : Heap) (o : Option Nat) :
    authStep env none h o = .proceed h o := rfl

lemma authStep_scheme_not_bearer (env : Env) (ad : SDict) (h : Heap) (o : Option Nat)
    (s : String) (hs : dictGet ad "scheme" = some s) (hb : s ≠ "bearer") :
    authStep env (some ad) h o = .failScheme (authSchemeMsg (some s)) := by
  have hemp := isEmpty_false_of_ne_nil (dictGet_ne_nil hs)
  simp only [authStep, Option.getD_some, hemp, Bool.false_eq_true, if_false,
    dictPop_fst, hs]
  have hbeq : ((some s == some "bearer") = true) = False := by
    simp [hb]
  simp only [hbeq, if_false]

lemma authStep_bearer_no_provider (env : Env) (ad : SDict) (h : Heap) (o : Option Nat)
    (hs : dictGet ad "scheme" = some "bearer") (hp : dictGet ad "provider" = none) :
    authStep env (some ad) h o = .raise (.keyError "provider") := by
  have hemp := isEmpty_false_of_ne_nil (dictGet_ne_nil hs)
  have h1 : dictGet (dictPop ad "scheme").2 "provider" = none := by
    rw [show (dictPop ad "scheme").2 = ad.filter (fun p => p.1 != "scheme") from rfl]
    rw [dictGet_filter_ne ad "scheme" "provider" (by decide)]
    exact hp
  simp only [authStep, Option.getD_some, hemp, Bool.false_eq_true, if_false,
    dictPop_fst, hs, beq_self_eq_true, if_true, h1]

lemma authStep_bearer_tokfail (env : Env) (ad : SDict) (h : Heap) (o : Option Nat)
    (p : String) (hs : dictGet ad "scheme" = some "bearer")
    (hp : dictGet ad "provider" = some p) (hne : bearerTokErrs env ad ≠ []) :
    authStep env (some ad) h o = .failTok (bearerTokErrs env ad) := by
  have hemp := isEmpty_false_of_ne_nil (dictGet_ne_nil hs)
  have h1 : dictGet (dictPop ad "scheme").2 "provider" = some p := by
    rw [show (dictPop ad "scheme").2 = ad.filter (fun p => p.1 != "scheme") from rfl]
    rw [dictGet_filter_ne ad "scheme" "provider" (by decide)]
    exact hp
  have h2 := isEmpty_false_of_ne_nil hne
  simp only [authStep, Option.getD_some, hemp, Bool.false_eq_true, if_false,
    dictPop_fst, hs, beq_self_eq_true, if_true]
  simp only [show ∀ e : Env,
      (if ((dictPop (dictPop ad "scheme").2 "provider").2).isEmpty then e.getToken
        else e.requestToken).1 = bearerTokErrs e ad from fun e => rfl]
  simp only [dictPop_fst, h1, h2, Bool.false_eq_true, if_false]

lemma http_rest_raise (env : Env) (errors : Option (List String)) (a : RestArgs)
    (heap : Heap) (e : PyExc)
    (hA : authStep env a.auth (cloneHeaders heap a.headersRef).1
      (cloneHeaders heap a.headersRef).2 = .raise e) :
    http_rest env errors a heap =
      ⟨.error e, errors, [], (cloneHeaders heap a.headersRef).1,
        (cloneHeaders heap a.headersRef).2⟩ := by
  simp only [http_rest, hA]

lemma http_rest_failTok (env : Env) (errors : Option (List String)) (a : RestArgs)
    (heap : Heap) (te : List String)
    (hA : authStep env a.auth (cloneHeaders heap a.headersRef).1
      (cloneHeaders heap a.headersRef).2 = .failTok te) :
    http_rest env errors a heap =
      ⟨.ok none, extendErrs errors te, [], (cloneHeaders heap a.headersRef).1,
        (cloneHeaders heap a.headersRef).2⟩ := by
  simp only [http_rest, hA]

lemma http_rest_failScheme (env : Env) (errors : Option (List String)) (a : RestArgs)
    (heap : Heap) (m : String)
    (hA : authStep env a.auth (cloneHeaders heap a.headersRef).1
      (cloneHeaders heap a.headersRef).2 = .failScheme m) :
    http_rest env errors a heap =
      ⟨.ok none, extendErrs errors [m], [], (cloneHeaders heap a.headersRef).1,
        (cloneHeaders heap a.headersRef).2⟩ := by
  simp only [http_rest, hA]

lemma http_rest_send_ok (env : Env) (errors : Option (List String)) (a : RestArgs)
    (heap : Heap) (h2 : Heap) (o2 : Option Nat) (pr : Option FDict × Heap) (r : Response)
    (hA : authStep env a.auth (cloneHeaders heap a.headersRef).1
      (cloneHeaders heap a.headersRef).2 = .proceed h2 o2)
    (hF : filesStep a.method a.filesRef h2 = .ok pr)
    (hT : env.transport = .ok r) :
    http_rest env errors a heap =
      if r.truthy = false ∨ r.status_code < 200 ∨ 300 ≤ r.status_code then
        ⟨.ok (some r),
          extendErrs errors [failMsg a.method.value a.url r.status_code r.reason],
          [⟨a.method.name, a.url, o2.map (heapGetS pr.2), a.params, a.data, a.jsonBody,
            pr.1, a.timeout⟩], pr.2, o2⟩
      else
        ⟨.ok (some r), errors,
          [⟨a.method.name, a.url, o2.map (heapGetS pr.2), a.params, a.data, a.jsonBody,
            pr.1, a.timeout⟩], pr.2, o2⟩ := by
  simp only [http_rest, hA, hF, hT]

lemma http_rest_send_exc (env : Env) (errors : Option (List String)) (a : RestArgs)
    (heap : Heap) (h2 : Heap) (o2 : Option Nat) (pr : Option FDict × Heap) (s : String)
    (hA : authStep env a.auth (cloneHeaders heap a.headersRef).1
      (cloneHeaders heap a.headersRef).2 = .proceed h2 o2)
    (hF : filesStep a.method a.filesRef h2 = .ok pr)
    (hT : env.transport = .error s) :
    http_rest env errors a heap =
      ⟨.error (.attributeError "NoneType object has no attribute status_code"), errors,
        [⟨a.method.name, a.url, o2.map (heapGetS pr.2), a.params, a.data, a.jsonBody,
          pr.1, a.timeout⟩], pr.2, o2⟩ := by
  simp only [http_rest, hA, hF, hT]

lemma http_rest_frame (env : Env) (errors : Option (List String)) (a : RestArgs)
    (heap : Heap) :
    (∀ i d, i < heap.length →
        ((http_rest env errors a heap).heap).getD i d = heap.getD i d) ∧
      (∀ n, (http_rest env errors a heap).opRef = some n → heap.length ≤ n) := by
  obtain ⟨c1, c2, c3⟩ := cloneHeaders_extends heap a.headersRef
  simp only [http_rest]
  match hA : authStep env a.auth (cloneHeaders heap a.headersRef).1
      (cloneHeaders heap a.headersRef).2 with
  | .raise e =>
    simp only [hA]
    exact ⟨c2, c3⟩
  | .failTok te =>
    simp only [hA]
    exact ⟨c2, c3⟩
  | .failScheme m =>
    simp only [hA]
    exact ⟨c2, c3⟩
  | .proceed h2 o2 =>
    obtain ⟨a1, a2, a3⟩ := authStep_extends env a.auth (cloneHeaders heap a.headersRef).1
      (cloneHeaders heap a.headersRef).2 heap.length c1 c3 h2 o2 hA
    simp only [hA]
    match hF : filesStep a.method a.filesRef h2 with
    | .error e =>
      simp only [hF]
      exact ⟨fun i d hi => (a2 i d hi).trans (c2 i d hi), a3⟩
    | .ok pr =>
      obtain ⟨f1, f2⟩ := filesStep_extends a.method a.filesRef h2 heap.length a1 pr.1 pr.2
        (by rw [hF])
      simp only [hF]
      match hT : env.transport with
      | .ok r =>
        simp only [hT]
        by_cases hc : r.truthy = false ∨ r.status_code < 200 ∨ 300 ≤ r.status_code
        · simp only [if_pos hc]
          exact ⟨fun i d hi => (f2 i d hi).trans ((a2 i d hi).trans (c2 i d hi)), a3⟩
        · simp only [if_neg hc]
          exact ⟨fun i d hi => (f2 i d hi).trans ((a2 i d hi).trans (c2 i d hi)), a3⟩
      | .error s =>
        simp only [hT]
        exact ⟨fun i d hi => (f2 i d hi).trans ((a2 i d hi).trans (c2 i d hi)), a3⟩

lemma b64_length : b64Alphabet.length = 64 := by decide

lemma b64_sextetIdx_sextetChar : ∀ s, s < 64 → sextetIdx (sextetChar s) = some s := by
  decide

lemma b64_sextetChar_ne_pad (s : Nat) : sextetChar s ≠ '=' := by
  by_cases hs : s < 64
  · exact (by decide : ∀ t, t < 64 → sextetChar t ≠ '=') s hs
  · unfold sextetChar
    rw [List.getD_eq_default]
    · decide
    · rw [b64_length]
      omega

theorem b64dchunks_b64chunks :
    ∀ bs : List Nat, (∀ b ∈ bs, b < 256) → b64dchunks (b64chunks bs) = some bs
  | [], _ => rfl
  | [b0], h => by
    have hb0 : b0 < 256 := h b0 (by simp)
    simp only [b64chunks, b64dchunks]
    rw [b64_sextetIdx_sextetChar _ (by omega), b64_sextetIdx_sextetChar _ (by omega)]
    simp only [Option.some.injEq, List.cons.injEq, and_true, if_true, and_self,
      reduceIte]
    omega
  | [b0, b1], h => by
    have hb0 : b0 < 256 := h b0 (by simp)
    have hb1 : b1 < 256 := h b1 (by simp)
    simp only [b64chunks, b64dchunks]
    rw [b64_sextetIdx_sextetChar _ (by omega), b64_sextetIdx_sextetChar _ (by omega)]
    simp only []
    rw [if_neg (b64_sextetChar_ne_pad _), b64_sextetIdx_sextetChar _ (by omega)]
    simp only [Option.some.injEq, List.cons.injEq, and_true, if_true, and_self,
      reduceIte]
    omega
  | b0 :: b1 :: b2 :: rest, h => by
    have hb0 : b0 < 256 := h b0 (by simp)
    have hb1 : b1 < 256 := h b1 (by simp)
    have hb2 : b2 < 256 := h b2 (by simp)
    have ih := b64dchunks_b64chunks rest (fun b hb => h b (by simp [hb]))
    simp only [b64chunks, b64dchunks]
    rw [b64_sextetIdx_sextetChar _ (by omega), b64_sextetIdx_sextetChar _ (by omega)]
    simp only []
    rw [if_neg (b64_sextetChar_ne_pad _), b64_sextetIdx_sextetChar _ (by omega)]
    simp only []
    rw [if_neg (b64_sextetChar_ne_pad _), b64_sextetIdx_sextetChar _ (by omega), ih]
    simp only [Option.some.injEq, List.cons.injEq, and_true]
    omega

theorem b64decode_b64encode (bs : List Nat) (h : ∀ b ∈ bs, b < 256) :
    b64decode (b64encode bs) = some bs :=
  b64dchunks_b64chunks bs h

lemma http_rest_files_err (env : Env) (errors : Option (List String)) (a : RestArgs)
    (heap : Heap) (h2 : Heap) (o2 : Option Nat) (e : PyExc)
    (hA : authStep env a.auth (cloneHeaders heap a.headersRef).1
      (cloneHeaders heap a.headersRef).2 = .proceed h2 o2)
    (hF : filesStep a.method a.filesRef h2 = .error e) :
    http_rest env errors a heap = ⟨.error e, errors, [], h2, o2⟩ := by
  simp only [http_rest, hA, hF]

lemma filesStep_not_post (m : HttpMethod) (fr : Option Nat) (h : Heap)
    (hm : m ≠ HttpMethod.POST) : filesStep m fr h = .ok (none, h) := by
  match fr with
  | none => rfl
  | some r =>
    simp only [filesStep]
    rw [if_neg]
    intro hc
    exact hm (by simpa using hc)

lemma http_rest_calls_shape (env : Env) (errors : Option (List String)) (a : RestArgs)
    (heap : Heap) :
    ∀ c ∈ (http_rest env errors a heap).calls,
      c.verb = a.method.name ∧ c.url = a.url ∧ c.timeout = a.timeout := by
  intro c hc
  match hA : authStep env a.auth (cloneHeaders heap a.headersRef).1
      (cloneHeaders heap a.headersRef).2 with
  | .raise e =>
    rw [http_rest_raise env errors a heap e hA] at hc
    exact absurd hc (by simp)
  | .failTok te =>
    rw [http_rest_failTok env errors a heap te hA] at hc
    exact absurd hc (by simp)
  | .failScheme m =>
    rw [http_rest_failScheme env errors a heap m hA] at hc
    exact absurd hc (by simp)
  | .proceed h2 o2 =>
    match hF : filesStep a.method a.filesRef h2 with
    | .error e =>
      rw [http_rest_files_err env errors a heap h2 o2 e hA hF] at hc
      exact absurd hc (by simp)
    | .ok pr =>
      match hT : env.transport with
      | .ok r =>
        rw [http_rest_send_ok env errors a heap h2 o2 pr r hA hF hT] at hc
        by_cases hcnd : r.truthy = false ∨ r.status_code < 200 ∨ 300 ≤ r.status_code
        · rw [if_pos hcnd] at hc
          simp only [List.mem_singleton] at hc
          subst hc
          exact ⟨rfl, rfl, rfl⟩
        · rw [if_neg hcnd] at hc
          simp only [List.mem_singleton] at hc
          subst hc
          exact ⟨rfl, rfl, rfl⟩
      | .error s =>
        rw [http_rest_send_exc env errors a heap h2 o2 pr s hA hF hT] at hc
        simp only [List.mem_singleton] at hc
        subst hc
        exact ⟨rfl, rfl, rfl⟩

lemma adjustEntries_spec :
    ∀ fd fd2 : FDict, adjustEntries fd = .ok fd2 →
      fd2.length = fd.length ∧
      ∀ (i : Nat) (k : String) (v : FileVal), fd[i]? = some (k, v) →
        ∃ v2, convFile v = .ok v2 ∧ fd2[i]? = some (k, v2) := by
  intro fd
  induction fd with
  | nil =>
    intro fd2 h
    have h2 : (Except.ok ([] : FDict) : Except PyExc FDict) = .ok fd2 := h
    simp only [Except.ok.injEq] at h2
    subst h2
    exact ⟨rfl, fun i k v hi => absurd hi (by simp)⟩
  | cons hd tl ih =>
    intro fd2 h
    obtain ⟨k0, v0⟩ := hd
    match hcv : convFile v0 with
    | .error e =>
      rw [show adjustEntries ((k0, v0) :: tl) =
          (convFile v0).bind (fun v2 => (adjustEntries tl).bind
            (fun rest2 => .ok ((k0, v2) :: rest2))) from rfl, hcv] at h
      exact absurd h (by simp [Except.bind])
    | .ok v2 =>
      match har : adjustEntries tl with
      | .error e =>
        rw [show adjustEntries ((k0, v0) :: tl) =
            (convFile v0).bind (fun v2 => (adjustEntries tl).bind
              (fun rest2 => .ok ((k0, v2) :: rest2))) from rfl, hcv, har] at h
        exact absurd h (by simp [Except.bind])
      | .ok tl2 =>
        rw [show adjustEntries ((k0, v0) :: tl) =
            (convFile v0).bind (fun v2 => (adjustEntries tl).bind
              (fun rest2 => .ok ((k0, v2) :: rest2))) from rfl, hcv, har] at h
        have h2 : (Except.ok ((k0, v2) :: tl2) : Except PyExc FDict) = .ok fd2 := h
        simp only [Except.ok.injEq] at h2
        subst h2
        obtain ⟨ihlen, ihidx⟩ := ih tl2 har
        constructor
        · simp [ihlen]
        · intro i k v hi
          match i with
          | 0 =>
            simp only [List.getElem?_cons_zero, Option.some.injEq, Prod.mk.injEq] at hi
            obtain ⟨rfl, rfl⟩ := hi
            exact ⟨v2, hcv, by simp⟩
          | i + 1 =>
            simp only [List.getElem?_cons_succ] at hi ⊢
            exact ihidx i k v hi

lemma run_cbCalls (job : JobSpec) (env : AsyncEnv) (hcb : job.callback = true) :
    (HttpAsync_run job env).cbCalls = [replyOf job env] := by
  simp only [HttpAsync_run, dispatchPrim, replyOf, hcb, if_true, List.nil_append]

lemma HttpAsync_run_eq_of_callback (job : JobSpec) (env : AsyncEnv)
    (hcb : job.callback = true) :
    HttpAsync_run job env = ⟨env.clock 0, env.clock 1,
      [⟨[], job.job_method, job.job_url, job.headers, job.params, job.data, job.jsonBody,
        job.auth, job.timeout⟩],
      [replyOf job env], [.recStart, .dispatch, .recFinish, .callbackCall]⟩ := by
  simp only [HttpAsync_run, dispatchPrim, replyOf, hcb, if_true, List.nil_append]

lemma HttpAsync_run_eq_no_callback (job : JobSpec) (env : AsyncEnv)
    (hcb : job.callback = false) :
    HttpAsync_run job env = ⟨env.clock 0, env.clock 1,
      [⟨[], job.job_method, job.job_url, job.headers, job.params, job.data, job.jsonBody,
        job.auth, job.timeout⟩],
      [], [.recStart, .dispatch, .recFinish]⟩ := by
  simp only [HttpAsync_run, dispatchPrim, hcb, Bool.false_eq_true, if_false]

/-! Claim theorems. -/

/-- Claim C1: the claim says a transport exception is caught, null is returned
and exactly one formatted error is appended, with no exception propagating. The
code disagrees: the except block does catch and format, but the status check
that follows dereferences result.status_code with result still None, so an
AttributeError escapes http_rest and nothing is appended to the sink. Evaluated
here at a concrete dispatch whose transport raises. -/
theorem c1_transport_exception_escapes :
    http_rest
      ⟨([], none), ([], none), .error "ConnectionError: connection refused"⟩
      (some [])
      ⟨.GET, "https://svc/x", none, none, none, none, none, none, none⟩ [] =
    ⟨.error (.attributeError "NoneType object has no attribute status_code"), some [],
      [⟨"GET", "https://svc/x", none, none, none, none, none, none⟩], [], none⟩ := rfl

/-- Claim C3: the claim says http_status_code returns the code of the first
entry whose name matches. The code disagrees: the loop iterates the status dict
itself rather than its items, so each iteration yields an int key and the
unpacking into the pair of loop variables raises TypeError on the first
iteration; no name is ever compared. Evaluated here at a concrete two-entry
table whose first entry matches the requested name. -/
theorem c3_status_code_raises_typeerror :
    http_status_code
      [(200, ⟨"OK", "Success", "Sucesso"⟩),
        (404, ⟨"Not Found", "Not found", "Nao encontrado"⟩)] "OK" =
      .error (.typeError "cannot unpack non-iterable int object") := rfl

/-- Claim C9: a bearer auth dict without a provider key makes http_rest raise an
uncaught KeyError to its caller: the transport is never invoked and nothing is
recorded in the error sink, so a provider entry is a precondition of every
bearer-authenticated dispatch. -/
theorem c9_bearer_without_provider_raises (env : Env) (errors : Option (List String))
    (a : RestArgs) (heap : Heap) (ad : SDict)
    (hauth : a.auth = some ad) (hs : dictGet ad "scheme" = some "bearer")
    (hp : dictGet ad "provider" = none) :
    (http_rest env errors a heap).ret = .error (.keyError "provider") ∧
    (http_rest env errors a heap).calls = [] ∧
    (http_rest env errors a heap).errs = errors := by
  have hA : authStep env a.auth (cloneHeaders heap a.headersRef).1
      (cloneHeaders heap a.headersRef).2 = .raise (.keyError "provider") := by
    rw [hauth]
    exact authStep_bearer_no_provider env ad _ _ hs hp
  rw [http_rest_raise env errors a heap _ hA]
  exact ⟨rfl, rfl, rfl⟩

/-- Claim C9 witness: a concrete dispatch with auth scheme bearer and no
provider key raises KeyError, makes no transport call, and leaves the sink
unchanged. -/
theorem c9_bearer_without_provider_raises_witness :
    (http_rest ⟨([], none), ([], none), .error "unused"⟩ (some ["old"])
      ⟨.POST, "https://svc", none, none, none, none, none,
        some [("scheme", "bearer")], none⟩ []).ret = .error (.keyError "provider") ∧
    (http_rest ⟨([], none), ([], none), .error "unused"⟩ (some ["old"])
      ⟨.POST, "https://svc", none, none, none, none, none,
        some [("scheme", "bearer")], none⟩ []).calls = [] ∧
    (http_rest ⟨([], none), ([], none), .error "unused"⟩ (some ["old"])
      ⟨.POST, "https://svc", none, none, none, none, none,
        some [("scheme", "bearer")], none⟩ []).errs = some ["old"] :=
  c9_bearer_without_provider_raises
    ⟨([], none), ([], none), .error "unused"⟩ (some ["old"])
    ⟨.POST, "https://svc", none, none, none, none, none,
      some [("scheme", "bearer")], none⟩ [] [("scheme", "bearer")] rfl rfl rfl

/-- Claim C4: an unsupported auth scheme aborts the dispatch before the
transport is invoked, returns null and appends exactly one error naming the
scheme; a failed bearer token fetch likewise aborts before the transport,
returns null and appends exactly the token-fetch errors. -/
theorem c4_auth_failures_abort :
    (∀ (env : Env) (l : List String) (a : RestArgs) (heap : Heap) (ad : SDict)
        (s : String),
      a.auth = some ad → dictGet ad "scheme" = some s → s ≠ "bearer" →
      (http_rest env (some l) a heap).calls = [] ∧
      (http_rest env (some l) a heap).ret = .ok none ∧
      (http_rest env (some l) a heap).errs = some (l ++ [authSchemeMsg (some s)]) ∧
      authSchemeMsg (some s) = "Authentication scheme " ++ s ++ " not implemented") ∧
    (∀ (env : Env) (l : List String) (a : RestArgs) (heap : Heap) (ad : SDict)
        (p : String),
      a.auth = some ad → dictGet ad "scheme" = some "bearer" →
      dictGet ad "provider" = some p → bearerTokErrs env ad ≠ [] →
      (http_rest env (some l) a heap).calls = [] ∧
      (http_rest env (some l) a heap).ret = .ok none ∧
      (http_rest env (some l) a heap).errs = some (l ++ bearerTokErrs env ad)) := by
  constructor
  · intro env l a heap ad s hauth hs hb
    have hA : authStep env a.auth (cloneHeaders heap a.headersRef).1
        (cloneHeaders heap a.headersRef).2 = .failScheme (authSchemeMsg (some s)) := by
      rw [hauth]
      exact authStep_scheme_not_bearer env ad _ _ s hs hb
    rw [http_rest_failScheme env (some l) a heap _ hA]
    exact ⟨rfl, rfl, rfl, rfl⟩
  · intro env l a heap ad p hauth hs hp hne
    have hA : authStep env a.auth (cloneHeaders heap a.headersRef).1
        (cloneHeaders heap a.headersRef).2 = .failTok (bearerTokErrs env ad) := by
      rw [hauth]
      exact authStep_bearer_tokfail env ad _ _ p hs hp hne
    rw [http_rest_failTok env (some l) a heap _ hA]
    exact ⟨rfl, rfl, rfl⟩

/-- Claim C4 witness: a concrete unsupported-scheme dispatch and a concrete
failed bearer token fetch, both aborting with no transport call. -/
theorem c4_auth_failures_abort_witness :
    ((http_rest ⟨([], none), ([], none), .error "unused"⟩ (some [])
        ⟨.GET, "https://svc", none, none, none, none, none,
          some [("scheme", "basic")], none⟩ []).calls = [] ∧
      (http_rest ⟨([], none), ([], none), .error "unused"⟩ (some [])
        ⟨.GET, "https://svc", none, none, none, none, none,
          some [("scheme", "basic")], none⟩ []).errs =
        some ["Authentication scheme basic not implemented"]) ∧
    ((http_rest ⟨([], none), (["token fetch failed"], none), .error "unused"⟩ (some [])
        ⟨.POST, "https://svc", none, none, none, none, none,
          some [("scheme", "bearer"), ("provider", "https://auth/token")], none⟩
        []).calls = [] ∧
      (http_rest ⟨([], none), (["token fetch failed"], none), .error "unused"⟩ (some [])
        ⟨.POST, "https://svc", none, none, none, none, none,
          some [("scheme", "bearer"), ("provider", "https://auth/token")], none⟩
        []).errs = some ["token fetch failed"]) := by
  have h1 := c4_auth_failures_abort.1 ⟨([], none), ([], none), .error "unused"⟩ []
    ⟨.GET, "https://svc", none, none, none, none, none,
      some [("scheme", "basic")], none⟩ [] [("scheme", "basic")] "basic" rfl rfl
    (by decide)
  have h2 := c4_auth_failures_abort.2
    ⟨([], none), (["token fetch failed"], none), .error "unused"⟩ []
    ⟨.POST, "https://svc", none, none, none, none, none,
      some [("scheme", "bearer"), ("provider", "https://auth/token")], none⟩ []
    [("scheme", "bearer"), ("provider", "https://auth/token")] "https://auth/token"
    rfl rfl rfl (by decide)
  exact ⟨⟨h1.1, h1.2.2.1.trans rfl⟩, ⟨h2.1, h2.2.2.trans rfl⟩⟩

/-- Claim C5: when auth resolution succeeds (here: the auth stage proceeds) and
the transport returns a response, a status code in 200..299 means the response
is returned with nothing appended to the sink, and a status code outside that
range means a descriptive error built from method, url, status code and reason
is appended while the response object is still returned. -/
theorem c5_status_validation (env : Env) (l : List String) (a : RestArgs) (heap : Heap)
    (h2 : Heap) (o2 : Option Nat) (pr : Option FDict × Heap) (r : Response)
    (hA : authStep env a.auth (cloneHeaders heap a.headersRef).1
      (cloneHeaders heap a.headersRef).2 = .proceed h2 o2)
    (hF : filesStep a.method a.filesRef h2 = .ok pr)
    (hT : env.transport = .ok r) :
    (200 ≤ r.status_code ∧ r.status_code ≤ 299 →
      (http_rest env (some l) a heap).ret = .ok (some r) ∧
      (http_rest env (some l) a heap).errs = some l) ∧
    (r.status_code < 200 ∨ 299 < r.status_code →
      (http_rest env (some l) a heap).ret = .ok (some r) ∧
      (http_rest env (some l) a heap).errs =
        some (l ++ [failMsg a.method.value a.url r.status_code r.reason])) := by
  rw [http_rest_send_ok env (some l) a heap h2 o2 pr r hA hF hT]
  constructor
  · intro hin
    have ht : r.truthy = true := by
      simp only [Response.truthy]
      rw [if_neg (by omega)]
    have hc : ¬(r.truthy = false ∨ r.status_code < 200 ∨ 300 ≤ r.status_code) := by
      rw [ht]
      simp only [Bool.true_eq_false, false_or, not_or]
      omega
    rw [if_neg hc]
    exact ⟨rfl, rfl⟩
  · intro hout
    have hc : r.truthy = false ∨ r.status_code < 200 ∨ 300 ≤ r.status_code := by
      rcases hout with h | h
      · exact Or.inr (Or.inl h)
      · exact Or.inr (Or.inr (by omega))
    rw [if_pos hc]
    exact ⟨rfl, rfl⟩

/-- Claim C5 witness: a concrete 200 dispatch returns the response and leaves
the sink unchanged, and a concrete 404 dispatch appends the descriptive error
and still returns the response. -/
theorem c5_status_validation_witness :
    ((http_rest ⟨([], none), ([], none), .ok ⟨200, "OK", some []⟩⟩ (some [])
        ⟨.GET, "https://svc", none, none, none, none, none, none, none⟩ []).ret =
          .ok (some ⟨200, "OK", some []⟩) ∧
      (http_rest ⟨([], none), ([], none), .ok ⟨200, "OK", some []⟩⟩ (some [])
        ⟨.GET, "https://svc", none, none, none, none, none, none, none⟩ []).errs =
          some []) ∧
    ((http_rest ⟨([], none), ([], none), .ok ⟨404, "Not Found", some []⟩⟩ (some [])
        ⟨.DELETE, "https://svc", none, none, none, none, none, none, none⟩ []).ret =
          .ok (some ⟨404, "Not Found", some []⟩) ∧
      (http_rest ⟨([], none), ([], none), .ok ⟨404, "Not Found", some []⟩⟩ (some [])
        ⟨.DELETE, "https://svc", none, none, none, none, none, none, none⟩ []).errs =
          some ["DELETE 'https://svc': failed, status 404, reason 'Not Found'"]) := by
  have h1 := (c5_status_validation ⟨([], none), ([], none), .ok ⟨200, "OK", some []⟩⟩
    [] ⟨.GET, "https://svc", none, none, none, none, none, none, none⟩ []
    [] none (none, []) ⟨200, "OK", some []⟩ rfl rfl rfl).1 (by decide)
  have h2 := (c5_status_validation ⟨([], none), ([], none), .ok ⟨404, "Not Found", some []⟩⟩
    [] ⟨.DELETE, "https://svc", none, none, none, none, none, none, none⟩ []
    [] none (none, []) ⟨404, "Not Found", some []⟩ rfl rfl rfl).2 (by decide)
  exact ⟨⟨h1.1, h1.2⟩, ⟨h2.1, h2.2.trans rfl⟩⟩

/-- Claim C10: the PATCH member of HttpMethod carries the string value "PATH"
while its name is "PATCH"; the verb handed to the transport is always the
member name, so PATCH dispatches are sent with the correct verb, while the
error message built on a failed status formats the member value "PATH". -/
theorem c10_patch_name_vs_value :
    HttpMethod.name .PATCH = "PATCH" ∧
    HttpMethod.value .PATCH = "PATH" ∧
    (∀ (env : Env) (errors : Option (List String)) (a : RestArgs) (heap : Heap),
      ∀ c ∈ (http_rest env errors a heap).calls, c.verb = a.method.name) ∧
    (∀ (env : Env) (l : List String) (a : RestArgs) (heap : Heap) (h2 : Heap)
        (o2 : Option Nat) (pr : Option FDict × Heap) (r : Response),
      a.method = .PATCH →
      authStep env a.auth (cloneHeaders heap a.headersRef).1
        (cloneHeaders heap a.headersRef).2 = .proceed h2 o2 →
      filesStep a.method a.filesRef h2 = .ok pr →
      env.transport = .ok r →
      r.status_code < 200 ∨ 300 ≤ r.status_code →
      (http_rest env (some l) a heap).errs =
        some (l ++ [failMsg "PATH" a.url r.status_code r.reason]) ∧
      (http_rest env (some l) a heap).calls.map TransportCall.verb = ["PATCH"]) := by
  refine ⟨rfl, rfl, ?_, ?_⟩
  · intro env errors a heap c hc
    exact (http_rest_calls_shape env errors a heap c hc).1
  · intro env l a heap h2 o2 pr r hm hA hF hT hbad
    rw [http_rest_send_ok env (some l) a heap h2 o2 pr r hA hF hT]
    have hc : r.truthy = false ∨ r.status_code < 200 ∨ 300 ≤ r.status_code :=
      Or.inr hbad
    rw [if_pos hc, hm]
    exact ⟨rfl, rfl⟩

/-- Claim C10 witness: a concrete PATCH dispatch whose transport reports status
500 records the verb "PATCH" on the transport call while the appended error
message renders the method as "PATH". -/
theorem c10_patch_name_vs_value_witness :
    (http_rest ⟨([], none), ([], none), .ok ⟨500, "Server Error", none⟩⟩ (some [])
      ⟨.PATCH, "https://svc", none, none, none, none, none, none, none⟩ []).errs =
        some ["PATH 'https://svc': failed, status 500, reason 'Server Error'"] ∧
    (http_rest ⟨([], none), ([], none), .ok ⟨500, "Server Error", none⟩⟩ (some [])
      ⟨.PATCH, "https://svc", none, none, none, none, none, none, none⟩ []).calls.map
        TransportCall.verb = ["PATCH"] := by
  have h := c10_patch_name_vs_value.2.2.2
    ⟨([], none), ([], none), .ok ⟨500, "Server Error", none⟩⟩ []
    ⟨.PATCH, "https://svc", none, none, none, none, none, none, none⟩ []
    [] none (none, []) ⟨500, "Server Error", none⟩ rfl rfl rfl rfl (by decide)
  exact ⟨h.1.trans rfl, h.2⟩

/-- Claim C7: http_rest never mutates a caller-supplied headers dict: the final
heap agrees with the initial heap below its original length, the headers object
handed to the transport is never the caller object, and a dispatch with no
headers and no auth passes no header mapping to the transport at all. -/
theorem c7_headers_never_mutated :
    (∀ (env : Env) (errors : Option (List String)) (a : RestArgs) (heap : Heap)
        (i : Nat) (d : Obj), i < heap.length →
      ((http_rest env errors a heap).heap).getD i d = heap.getD i d) ∧
    (∀ (env : Env) (errors : Option (List String)) (a : RestArgs) (heap : Heap)
        (r : Nat), a.headersRef = some r → r < heap.length →
      (http_rest env errors a heap).opRef ≠ some r) ∧
    (∀ (env : Env) (errors : Option (List String)) (a : RestArgs) (heap : Heap),
      a.headersRef = none → a.auth = none →
      ∀ c ∈ (http_rest env errors a heap).calls, c.headers = none) := by
  refine ⟨?_, ?_, ?_⟩
  · intro env errors a heap i d hi
    exact (http_rest_frame env errors a heap).1 i d hi
  · intro env errors a heap r _ hlt hsome
    have := (http_rest_frame env errors a heap).2 r hsome
    omega
  · intro env errors a heap hhr hauth c hc
    have hA : authStep env a.auth (cloneHeaders heap a.headersRef).1
        (cloneHeaders heap a.headersRef).2 = .proceed heap none := by
      rw [hauth, hhr]
      rfl
    match hF : filesStep a.method a.filesRef heap with
    | .error e =>
      rw [http_rest_files_err env errors a heap heap none e hA hF] at hc
      exact absurd hc (by simp)
    | .ok pr =>
      match hT : env.transport with
      | .ok r =>
        rw [http_rest_send_ok env errors a heap heap none pr r hA hF hT] at hc
        by_cases hcnd : r.truthy = false ∨ r.status_code < 200 ∨ 300 ≤ r.status_code
        · rw [if_pos hcnd] at hc
          simp only [List.mem_singleton] at hc
          subst hc
          rfl
        · rw [if_neg hcnd] at hc
          simp only [List.mem_singleton] at hc
          subst hc
          rfl
      | .error s =>
        rw [http_rest_send_exc env errors a heap heap none pr s hA hF hT] at hc
        simp only [List.mem_singleton] at hc
        subst hc
        rfl

/-- Claim C7 witness: a concrete dispatch with a caller headers dict on the heap
and bearer auth succeeding leaves the caller object unchanged and does not hand
its ref to the transport; and a concrete dispatch with no headers and no auth
sends no header mapping. -/
theorem c7_headers_never_mutated_witness :
    ((http_rest ⟨([], none), ([], some "tok"), .ok ⟨200, "OK", none⟩⟩ (some [])
        ⟨.GET, "https://svc", some 0, none, none, none, none,
          some [("scheme", "bearer"), ("provider", "https://auth")], none⟩
        [Obj.strdict [("X-Trace", "1")]]).heap.getD 0 (Obj.strdict []) =
      Obj.strdict [("X-Trace", "1")]) ∧
    ((http_rest ⟨([], none), ([], some "tok"), .ok ⟨200, "OK", none⟩⟩ (some [])
        ⟨.GET, "https://svc", some 0, none, none, none, none,
          some [("scheme", "bearer"), ("provider", "https://auth")], none⟩
        [Obj.strdict [("X-Trace", "1")]]).opRef ≠ some 0) ∧
    (∀ c ∈ (http_rest ⟨([], none), ([], none), .ok ⟨200, "OK", none⟩⟩ (some [])
        ⟨.GET, "https://svc", none, none, none, none, none, none, none⟩ []).calls,
      c.headers = none) := by
  refine ⟨?_, ?_, ?_⟩
  · exact c7_headers_never_mutated.1
      ⟨([], none), ([], some "tok"), .ok ⟨200, "OK", none⟩⟩ (some [])
      ⟨.GET, "https://svc", some 0, none, none, none, none,
        some [("scheme", "bearer"), ("provider", "https://auth")], none⟩
      [Obj.strdict [("X-Trace", "1")]] 0 (Obj.strdict []) (by decide)
  · exact c7_headers_never_mutated.2.1
      ⟨([], none), ([], some "tok"), .ok ⟨200, "OK", none⟩⟩ (some [])
      ⟨.GET, "https://svc", some 0, none, none, none, none,
        some [("scheme", "bearer"), ("provider", "https://auth")], none⟩
      [Obj.strdict [("X-Trace", "1")]] 0 rfl (by decide)
  · exact c7_headers_never_mutated.2.2
      ⟨([], none), ([], none), .ok ⟨200, "OK", none⟩⟩ (some [])
      ⟨.GET, "https://svc", none, none, none, none, none, none, none⟩ [] rfl rfl

/-- Claim C8: for POST dispatches with a files mapping the normalization works
on a copy (the caller object on the heap is unchanged): standalone byte values
become seekable streams at offset 0 whose read-back equals the original bytes,
tuples with bytes in position 1 get exactly that position converted with the
shape preserved, the normalized copy is what the transport receives, and for
every method other than POST no files value is passed to the transport. -/
theorem c8_files_normalization :
    (∀ b : List Nat,
      convFile (.bytes b) = .ok (.stream ⟨b, 0⟩) ∧ streamRead ⟨b, 0⟩ = b) ∧
    (∀ (es : List FileElem) (b : List Nat), es[1]? = some (.bytes b) →
      convFile (.tup es) = .ok (.tup (es.set 1 (.stream ⟨b, 0⟩))) ∧
      (es.set 1 (FileElem.stream ⟨b, 0⟩)).length = es.length ∧
      ∀ j : Nat, j ≠ 1 → (es.set 1 (FileElem.stream ⟨b, 0⟩))[j]? = es[j]?) ∧
    (∀ fd fd2 : FDict, adjustEntries fd = .ok fd2 →
      fd2.length = fd.length ∧
      ∀ (i : Nat) (k : String) (v : FileVal), fd[i]? = some (k, v) →
        ∃ v2, convFile v = .ok v2 ∧ fd2[i]? = some (k, v2)) ∧
    (∀ (env : Env) (errors : Option (List String)) (a : RestArgs) (heap : Heap),
      a.method ≠ .POST →
      ∀ c ∈ (http_rest env errors a heap).calls, c.files = none) ∧
    (∀ (env : Env) (errors : Option (List String)) (a : RestArgs) (heap : Heap)
        (fr : Nat) (fd2 : FDict),
      a.auth = none → a.method = .POST → a.filesRef = some fr → fr < heap.length →
      adjustEntries (heapGetF heap fr) = .ok fd2 →
      heapGetF ((http_rest env errors a heap).heap) fr = heapGetF heap fr ∧
      ∀ c ∈ (http_rest env errors a heap).calls, c.files = some fd2) := by
  refine ⟨?_, ?_, adjustEntries_spec, ?_, ?_⟩
  · intro b
    exact ⟨rfl, by simp [streamRead]⟩
  · intro es b hb
    refine ⟨by simp only [convFile, hb]; rfl, by simp, ?_⟩
    intro j hj
    exact List.getElem?_set_ne (by omega)
  · intro env errors a heap hm c hc
    have hA0 := fun h2 o2 (hA : authStep env a.auth (cloneHeaders heap a.headersRef).1
      (cloneHeaders heap a.headersRef).2 = .proceed h2 o2) =>
      filesStep_not_post a.method a.filesRef h2 hm
    match hA : authStep env a.auth (cloneHeaders heap a.headersRef).1
        (cloneHeaders heap a.headersRef).2 with
    | .raise e =>
      rw [http_rest_raise env errors a heap e hA] at hc
      exact absurd hc (by simp)
    | .failTok te =>
      rw [http_rest_failTok env errors a heap te hA] at hc
      exact absurd hc (by simp)
    | .failScheme m =>
      rw [http_rest_failScheme env errors a heap m hA] at hc
      exact absurd hc (by simp)
    | .proceed h2 o2 =>
      have hF := filesStep_not_post a.method a.filesRef h2 hm
      match hT : env.transport with
      | .ok r =>
        rw [http_rest_send_ok env errors a heap h2 o2 (none, h2) r hA hF hT] at hc
        by_cases hcnd : r.truthy = false ∨ r.status_code < 200 ∨ 300 ≤ r.status_code
        · rw [if_pos hcnd] at hc
          simp only [List.mem_singleton] at hc
          subst hc
          rfl
        · rw [if_neg hcnd] at hc
          simp only [List.mem_singleton] at hc
          subst hc
          rfl
      | .error s =>
        rw [http_rest_send_exc env errors a heap h2 o2 (none, h2) s hA hF hT] at hc
        simp only [List.mem_singleton] at hc
        subst hc
        rfl
  · intro env errors a heap fr fd2 hauth hm hfr hlt hadj
    have hA : authStep env a.auth (cloneHeaders heap a.headersRef).1
        (cloneHeaders heap a.headersRef).2 =
        .proceed (cloneHeaders heap a.headersRef).1 (cloneHeaders heap a.headersRef).2 := by
      rw [hauth]
      rfl
    obtain ⟨c1, c2, c3⟩ := cloneHeaders_extends heap a.headersRef
    have hval : heapGetF (cloneHeaders heap a.headersRef).1 fr = heapGetF heap fr := by
      simp only [heapGetF, c2 fr (Obj.filedict []) hlt]
    have hF : filesStep a.method a.filesRef (cloneHeaders heap a.headersRef).1 =
        .ok (some fd2,
          ((cloneHeaders heap a.headersRef).1 ++ [Obj.filedict (heapGetF heap fr)]).set
            (cloneHeaders heap a.headersRef).1.length (Obj.filedict fd2)) := by
      rw [hm, hfr]
      simp only [filesStep]
      rw [if_pos (show (HttpMethod.POST == HttpMethod.POST) = true from rfl), hval, hadj]
    constructor
    · have hacc := (http_rest_frame env errors a heap).1 fr (Obj.filedict []) hlt
      simp only [heapGetF, hacc]
    · intro c hc
      match hT : env.transport with
      | .ok r =>
        rw [http_rest_send_ok env errors a heap _ _ _ r hA hF hT] at hc
        by_cases hcnd : r.truthy = false ∨ r.status_code < 200 ∨ 300 ≤ r.status_code
        · rw [if_pos hcnd] at hc
          simp only [List.mem_singleton] at hc
          subst hc
          rfl
        · rw [if_neg hcnd] at hc
          simp only [List.mem_singleton] at hc
          subst hc
          rfl
      | .error s =>
        rw [http_rest_send_exc env errors a heap _ _ _ s hA hF hT] at hc
        simp only [List.mem_singleton] at hc
        subst hc
        rfl

/-- Claim C8 witness: a concrete POST dispatch with a files dict holding raw
bytes and a tuple with bytes in position 1: the caller object is unchanged, the
transport receives the normalized copy with streams at offset 0, and a concrete
GET dispatch passes no files value. -/
theorem c8_files_normalization_witness :
    (convFile (.bytes [1, 2]) = .ok (.stream ⟨[1, 2], 0⟩) ∧
      streamRead ⟨[1, 2], 0⟩ = [1, 2]) ∧
    (heapGetF ((http_rest ⟨([], none), ([], none), .ok ⟨200, "OK", none⟩⟩ (some [])
        ⟨.POST, "https://svc", none, none, none, none, some 0, none, none⟩
        [Obj.filedict [("f", FileVal.bytes [1, 2]),
          ("g", FileVal.tup [FileElem.str "a.txt", FileElem.bytes [3],
            FileElem.str "text/plain"])]]).heap) 0 =
      [("f", FileVal.bytes [1, 2]),
        ("g", FileVal.tup [FileElem.str "a.txt", FileElem.bytes [3],
          FileElem.str "text/plain"])]) ∧
    (∀ c ∈ (http_rest ⟨([], none), ([], none), .ok ⟨200, "OK", none⟩⟩ (some [])
        ⟨.POST, "https://svc", none, none, none, none, some 0, none, none⟩
        [Obj.filedict [("f", FileVal.bytes [1, 2]),
          ("g", FileVal.tup [FileElem.str "a.txt", FileElem.bytes [3],
            FileElem.str "text/plain"])]]).calls,
      c.files = some [("f", FileVal.stream ⟨[1, 2], 0⟩),
        ("g", FileVal.tup [FileElem.str "a.txt", FileElem.stream ⟨[3], 0⟩,
          FileElem.str "text/plain"])]) ∧
    (∀ c ∈ (http_rest ⟨([], none), ([], none), .ok ⟨200, "OK", none⟩⟩ (some [])
        ⟨.GET, "https://svc", none, none, none, none, some 0, none, none⟩
        [Obj.filedict [("f", FileVal.bytes [1, 2])]]).calls, c.files = none) := by
  have h5 := c8_files_normalization.2.2.2.2
    ⟨([], none), ([], none), .ok ⟨200, "OK", none⟩⟩ (some [])
    ⟨.POST, "https://svc", none, none, none, none, some 0, none, none⟩
    [Obj.filedict [("f", FileVal.bytes [1, 2]),
      ("g", FileVal.tup [FileElem.str "a.txt", FileElem.bytes [3],
        FileElem.str "text/plain"])]] 0
    [("f", FileVal.stream ⟨[1, 2], 0⟩),
      ("g", FileVal.tup [FileElem.str "a.txt", FileElem.stream ⟨[3], 0⟩,
        FileElem.str "text/plain"])] rfl rfl rfl (by decide) rfl
  have h4 := c8_files_normalization.2.2.2.1
    ⟨([], none), ([], none), .ok ⟨200, "OK", none⟩⟩ (some [])
    ⟨.GET, "https://svc", none, none, none, none, some 0, none, none⟩
    [Obj.filedict [("f", FileVal.bytes [1, 2])]] (by decide)
  have h1 := c8_files_normalization.1 [1, 2]
  exact ⟨h1, h5.1.trans (by decide), h5.2, h4⟩

/-- Claim C2: HttpAsync.run records the start timestamp, invokes the dispatch
primitive exactly once with a private initially-empty error list and the stored
method, url, headers, params, data, json, auth and timeout, then records the
finish timestamp; under a monotone clock start is at most finish, and the
callback, when supplied, is invoked exactly once, after the finish timestamp is
recorded. -/
theorem c2_run_contract (job : JobSpec) (env : AsyncEnv)
    (hclock : ∀ i j : Nat, i ≤ j → env.clock i ≤ env.clock j) :
    (HttpAsync_run job env).dispCalls =
      [⟨[], job.job_method, job.job_url, job.headers, job.params, job.data, job.jsonBody,
        job.auth, job.timeout⟩] ∧
    (HttpAsync_run job env).start = env.clock 0 ∧
    (HttpAsync_run job env).finish = env.clock 1 ∧
    (HttpAsync_run job env).start ≤ (HttpAsync_run job env).finish ∧
    (job.callback = true → (HttpAsync_run job env).cbCalls.length = 1 ∧
      (HttpAsync_run job env).events =
        [.recStart, .dispatch, .recFinish, .callbackCall]) ∧
    (job.callback = false → (HttpAsync_run job env).cbCalls = []) := by
  cases hcb : job.callback
  · rw [HttpAsync_run_eq_no_callback job env hcb]
    exact ⟨rfl, rfl, rfl, hclock 0 1 (by omega),
      fun h => absurd h (by decide), fun _ => rfl⟩
  · rw [HttpAsync_run_eq_of_callback job env hcb]
    exact ⟨rfl, rfl, rfl, hclock 0 1 (by omega), fun _ => ⟨rfl, rfl⟩,
      fun h => absurd h (by decide)⟩

/-- Claim C2 witness: a concrete job with a callback, run under the identity
clock, dispatches exactly once with the stored arguments and an empty private
error list, has start at most finish, and invokes the callback once. -/
theorem c2_run_contract_witness :
    (HttpAsync_run
      ⟨"job", "https://svc", "GET", true, false, none, none, none, none, none, none⟩
      ⟨fun i => i, ["boom"], none⟩).dispCalls =
      [⟨[], "GET", "https://svc", none, none, none, none, none, none⟩] ∧
    (HttpAsync_run
      ⟨"job", "https://svc", "GET", true, false, none, none, none, none, none, none⟩
      ⟨fun i => i, ["boom"], none⟩).start ≤
      (HttpAsync_run
        ⟨"job", "https://svc", "GET", true, false, none, none, none, none, none, none⟩
        ⟨fun i => i, ["boom"], none⟩).finish ∧
    (HttpAsync_run
      ⟨"job", "https://svc", "GET", true, false, none, none, none, none, none, none⟩
      ⟨fun i => i, ["boom"], none⟩).cbCalls.length = 1 := by
  have h := c2_run_contract
    ⟨"job", "https://svc", "GET", true, false, none, none, none, none, none, none⟩
    ⟨fun i => i, ["boom"], none⟩ (fun i j hij => hij)
  exact ⟨h.1, h.2.2.2.1, (h.2.2.2.2.1 rfl).1⟩

/-- Claim C6 counterexample: the claim says the content key is present whenever
report_content is true, a response was obtained and it carries byte content.
Here report_content is true and the dispatcher returns a 404 response carrying
the bytes [104, 105], yet the reply handed to the callback has no content key:
the source guards the key with the truthiness of the response object, and a
requests.Response with status 400..599 is falsy. -/
theorem c6_envelope_counterexample :
    (HttpAsync_run
        ⟨"job", "https://svc", "GET", true, true, none, none, none, none, none, none⟩
        ⟨fun _ => 0, [], some ⟨404, "Not Found", some [104, 105]⟩⟩).cbCalls =
      [[("job-name", RVal.str "job"), ("start", RVal.time 0),
        ("finish", RVal.time 0)]] ∧
    replyHasKey [("job-name", RVal.str "job"), ("start", RVal.time 0),
      ("finish", RVal.time 0)] "content" = false ∧
    (⟨404, "Not Found", some [104, 105]⟩ : Response).truthy = false := by
  exact ⟨rfl, rfl, rfl⟩

/-- Claim C6 as amended: for every completed job with a callback the reply
always carries the keys job-name, start and finish; it carries errors (the
JSON-serialized error list) exactly when the private error list is non-empty;
and it carries content exactly when report_content is true, a response was
obtained that is truthy (status outside 400..599), and that response carries
byte content, in which case the value is the Base64 encoding of the raw bytes
and decodes back to them; with report_content false no content key ever
appears. -/
theorem c6_envelope_amended (job : JobSpec) (env : AsyncEnv) (hcb : job.callback = true) :
    (HttpAsync_run job env).cbCalls = [replyOf job env] ∧
    replyHasKey (replyOf job env) "job-name" = true ∧
    replyHasKey (replyOf job env) "start" = true ∧
    replyHasKey (replyOf job env) "finish" = true ∧
    (replyHasKey (replyOf job env) "errors" = true ↔ env.dispErrs ≠ []) ∧
    (env.dispErrs ≠ [] →
      replyGet (replyOf job env) "errors" = some (.str (jsonDumps env.dispErrs))) ∧
    (replyHasKey (replyOf job env) "content" = true ↔
      (job.report_content = true ∧ ∃ r bs, env.dispResp = some r ∧ r.truthy = true ∧
        r.content = some bs)) ∧
    (∀ (r : Response) (bs : List Nat), env.dispResp = some r → r.content = some bs →
      job.report_content = true → r.truthy = true →
      replyGet (replyOf job env) "content" = some (.str (b64encode bs)) ∧
      ((∀ b ∈ bs, b < 256) → b64decode (b64encode bs) = some bs)) ∧
    (job.report_content = false → replyHasKey (replyOf job env) "content" = false) := by
  refine ⟨run_cbCalls job env hcb, ?_⟩
  rcases hdr : env.dispResp with _ | r
  · rcases herr : env.dispErrs with _ | ⟨e, es⟩
    · have hR : replyOf job env = [("job-name", RVal.str job.job_name),
          ("start", RVal.time (env.clock 0)), ("finish", RVal.time (env.clock 1))] := by
        simp [replyOf, hdr, herr]
      rw [hR]
      refine ⟨by simp [replyHasKey, replyGet], by simp [replyHasKey, replyGet],
        by simp [replyHasKey, replyGet], by simp [replyHasKey, replyGet],
        by simp, by simp [replyHasKey, replyGet], ?_, by simp [replyHasKey, replyGet]⟩
      intro r2 bs2 h1
      exact absurd h1 (by simp)
    · have hR : replyOf job env = [("job-name", RVal.str job.job_name),
          ("start", RVal.time (env.clock 0)), ("finish", RVal.time (env.clock 1)),
          ("errors", RVal.str (jsonDumps (e :: es)))] := by
        simp [replyOf, hdr, herr]
      rw [hR]
      refine ⟨by simp [replyHasKey, replyGet], by simp [replyHasKey, replyGet],
        by simp [replyHasKey, replyGet], by simp [replyHasKey, replyGet],
        fun _ => by simp [replyGet], by simp [replyHasKey, replyGet], ?_,
        by simp [replyHasKey, replyGet]⟩
      intro r2 bs2 h1
      exact absurd h1 (by simp)
  · rcases hco : r.content with _ | bs
    · rcases herr : env.dispErrs with _ | ⟨e, es⟩
      · have hR : replyOf job env = [("job-name", RVal.str job.job_name),
            ("start", RVal.time (env.clock 0)), ("finish", RVal.time (env.clock 1))] := by
          simp [replyOf, hdr, herr, hco]
        rw [hR]
        refine ⟨by simp [replyHasKey, replyGet], by simp [replyHasKey, replyGet],
          by simp [replyHasKey, replyGet], by simp [replyHasKey, replyGet],
          by simp, ?_, ?_, by simp [replyHasKey, replyGet]⟩
        · constructor
          · intro h
            exact absurd h (by simp [replyHasKey, replyGet])
          · rintro ⟨-, r2, bs2, hr2, -, hc2⟩
            injection hr2 with he
            subst he
            rw [hco] at hc2
            exact absurd hc2 (by simp)
        · intro r2 bs2 h1 h2
          injection h1 with he
          subst he
          rw [hco] at h2
          exact absurd h2 (by simp)
      · have hR : replyOf job env = [("job-name", RVal.str job.job_name),
            ("start", RVal.time (env.clock 0)), ("finish", RVal.time (env.clock 1)),
            ("errors", RVal.str (jsonDumps (e :: es)))] := by
          simp [replyOf, hdr, herr, hco]
        rw [hR]
        refine ⟨by simp [replyHasKey, replyGet], by simp [replyHasKey, replyGet],
          by simp [replyHasKey, replyGet], by simp [replyHasKey, replyGet],
          fun _ => by simp [replyGet], ?_, ?_, by simp [replyHasKey, replyGet]⟩
        · constructor
          · intro h
            exact absurd h (by simp [replyHasKey, replyGet])
          · rintro ⟨-, r2, bs2, hr2, -, hc2⟩
            injection hr2 with he
            subst he
            rw [hco] at hc2
            exact absurd hc2 (by simp)
        · intro r2 bs2 h1 h2
          injection h1 with he
          subst he
          rw [hco] at h2
          exact absurd h2 (by simp)
    · by_cases hrc : (job.report_content && r.truthy) = true
      · have hand := hrc
        simp only [Bool.and_eq_true] at hand
        have hrc1 : job.report_content = true := hand.1
        have hrc2 : r.truthy = true := hand.2
        rcases herr : env.dispErrs with _ | ⟨e, es⟩
        · have hR : replyOf job env = [("job-name", RVal.str job.job_name),
              ("start", RVal.time (env.clock 0)), ("finish", RVal.time (env.clock 1)),
              ("content", RVal.str (b64encode bs))] := by
            simp [replyOf, hdr, herr, hco, hrc]
          rw [hR]
          refine ⟨by simp [replyHasKey, replyGet], by simp [replyHasKey, replyGet],
            by simp [replyHasKey, replyGet], by simp [replyHasKey, replyGet],
            by simp, ?_, ?_, ?_⟩
          · exact ⟨fun _ => ⟨hrc1, r, bs, rfl, hrc2, hco⟩,
              fun _ => by simp [replyHasKey, replyGet]⟩
          · intro r2 bs2 h1 h2 _ _
            injection h1 with he
            subst he
            rw [hco] at h2
            injection h2 with h2
            subst h2
            exact ⟨by simp [replyGet], fun hb => b64decode_b64encode bs hb⟩
          · intro hrcf
            rw [hrcf] at hrc1
            exact absurd hrc1 (by decide)
        · have hR : replyOf job env = [("job-name", RVal.str job.job_name),
              ("start", RVal.time (env.clock 0)), ("finish", RVal.time (env.clock 1)),
              ("errors", RVal.str (jsonDumps (e :: es))),
              ("content", RVal.str (b64encode bs))] := by
            simp [replyOf, hdr, herr, hco, hrc]
          rw [hR]
          refine ⟨by simp [replyHasKey, replyGet], by simp [replyHasKey, replyGet],
            by simp [replyHasKey, replyGet], by simp [replyHasKey, replyGet],
            fun _ => by simp [replyGet], ?_, ?_, ?_⟩
          · exact ⟨fun _ => ⟨hrc1, r, bs, rfl, hrc2, hco⟩,
              fun _ => by simp [replyHasKey, replyGet]⟩
          · intro r2 bs2 h1 h2 _ _
            injection h1 with he
            subst he
            rw [hco] at h2
            injection h2 with h2
            subst h2
            exact ⟨by simp [replyGet], fun hb => b64decode_b64encode bs hb⟩
          · intro hrcf
            rw [hrcf] at hrc1
            exact absurd hrc1 (by decide)
      · have hrcf : (job.report_content && r.truthy) = false := by
          revert hrc
          cases job.report_content && r.truthy <;> simp
        rcases herr : env.dispErrs with _ | ⟨e, es⟩
        · have hR : replyOf job env = [("job-name", RVal.str job.job_name),
              ("start", RVal.time (env.clock 0)), ("finish", RVal.time (env.clock 1))] := by
            simp [replyOf, hdr, herr, hco, hrcf]
          rw [hR]
          refine ⟨by simp [replyHasKey, replyGet], by simp [replyHasKey, replyGet],
            by simp [replyHasKey, replyGet], by simp [replyHasKey, replyGet],
            by simp, ?_, ?_, by simp [replyHasKey, replyGet]⟩
          · constructor
            · intro h
              exact absurd h (by simp [replyHasKey, replyGet])
            · rintro ⟨h3, r2, bs2, hr2, h4, -⟩
              injection hr2 with he
              subst he
              rw [h3, h4] at hrcf
              exact absurd hrcf (by decide)
          · intro r2 bs2 h1 h2 h3 h4
            injection h1 with he
            subst he
            rw [h3, h4] at hrcf
            exact absurd hrcf (by decide)
        · have hR : replyOf job env = [("job-name", RVal.str job.job_name),
              ("start", RVal.time (env.clock 0)), ("finish", RVal.time (env.clock 1)),
              ("errors", RVal.str (jsonDumps (e :: es)))] := by
            simp [replyOf, hdr, herr, hco, hrcf]
          rw [hR]
          refine ⟨by simp [replyHasKey, replyGet], by simp [replyHasKey, replyGet],
            by simp [replyHasKey, replyGet], by simp [replyHasKey, replyGet],
            fun _ => by simp [replyGet], ?_, ?_, by simp [replyHasKey, replyGet]⟩
          · constructor
            · intro h
              exact absurd h (by simp [replyHasKey, replyGet])
            · rintro ⟨h3, r2, bs2, hr2, h4, -⟩
              injection hr2 with he
              subst he
              rw [h3, h4] at hrcf
              exact absurd hrcf (by decide)
          · intro r2 bs2 h1 h2 h3 h4
            injection h1 with he
            subst he
            rw [h3, h4] at hrcf
            exact absurd hrcf (by decide)

/-- Claim C6 witness: a concrete job with callback and report_content, whose
dispatcher reports one error and returns a truthy 200 response with byte
content: the reply carries all five keys, and the content value decodes back to
the raw bytes. -/
theorem c6_envelope_amended_witness :
    (HttpAsync_run
        ⟨"job", "https://svc", "GET", true, true, none, none, none, none, none, none⟩
        ⟨fun _ => 7, ["oops"], some ⟨200, "OK", some [104, 105]⟩⟩).cbCalls =
      [replyOf
        ⟨"job", "https://svc", "GET", true, true, none, none, none, none, none, none⟩
        ⟨fun _ => 7, ["oops"], some ⟨200, "OK", some [104, 105]⟩⟩] ∧
    replyGet (replyOf
        ⟨"job", "https://svc", "GET", true, true, none, none, none, none, none, none⟩
        ⟨fun _ => 7, ["oops"], some ⟨200, "OK", some [104, 105]⟩⟩) "content" =
      some (.str (b64encode [104, 105])) ∧
    b64decode (b64encode [104, 105]) = some [104, 105] ∧
    replyHasKey (replyOf
        ⟨"job", "https://svc", "GET", true, true, none, none, none, none, none, none⟩
        ⟨fun _ => 7, ["oops"], some ⟨200, "OK", some [104, 105]⟩⟩) "errors" = true := by
  have h := c6_envelope_amended
    ⟨"job", "https://svc", "GET", true, true, none, none, none, none, none, none⟩
    ⟨fun _ => 7, ["oops"], some ⟨200, "OK", some [104, 105]⟩⟩ rfl
  have hc := h.2.2.2.2.2.2.2.1 ⟨200, "OK", some [104, 105]⟩ [104, 105] rfl rfl rfl rfl
  exact ⟨h.1, hc.1, hc.2 (by decide), (h.2.2.2.2.1).2 (by decide)⟩

end PypomesHttp
